import Mathlib

/-!
Verification of the SlideSync instruction-stream, geometry and tracking-loop
components against their C++ sources.

The embedding models `unsigned int` values as `Nat` together with explicit
reduction modulo `2^32` at exactly the places where the C++ code can wrap
(the `length - 1` guard of `SyncInstructions::Next`, the fill count of `pad`,
the `power *= 10` update of `nchars`, the accumulation in `timestamp2index`).
`double` coordinates are modelled as exact rationals; IEEE special values
(infinities and NaN) are modelled by the inductive `FP` below, and the one
genuinely irrational operation, `std::sqrt` on a finite argument, is a
parameter of the definitions that use it, so every theorem quantifies over it.
Fallible stream operations (`std::istream` with `exceptions(failbit)` enabled)
are modelled with `Option`: `none` is a thrown `std::ios_base::failure`.
-/

namespace SlideSync

/-- The modulus of C++ `unsigned int` arithmetic on the target platform. -/
def U32 : Nat := 4294967296

/-- `SyncInstructionCode` from `SyncInstructions.hpp`: the enum class of slide
synchronization commands, in declaration order `Undefined, Next, Previous,
GoTo, End`. -/
inductive SyncInstructionCode where
  | Undefined
  | Next
  | Previous
  | GoTo
  | End
deriving DecidableEq

/-- `SyncInstruction` from `SyncInstructions.hpp`: a timestamp (frame index,
`unsigned int`), a command code, extra data (`unsigned int`, the zero-based
target slide for `GoTo`, zero otherwise) and the relative flag. -/
structure SyncInstruction where
  timestamp : Nat
  code : SyncInstructionCode
  data : Nat
  relative : Bool
deriving DecidableEq

/-- The state of a `SyncInstructions` object (`SyncInstructions.hpp`, the
`std::vector<SyncInstruction>` variant): the appended instruction list, the
footage framerate, the slide index reached by replaying the instructions, and
the number of slides. -/
structure SyncInstructions where
  instructions : List SyncInstruction
  framerate : Nat
  current_index : Nat
  length : Nat
deriving DecidableEq

/-- `SyncInstructions::SyncInstructions(unsigned int length)`: empty stream,
framerate 0, current index 0. -/
def SyncInstructions.mk1 (length : Nat) : SyncInstructions :=
  ⟨[], 0, 0, length⟩

/-- `SyncInstructions::SyncInstructions(unsigned int, unsigned int)`: empty
stream with the given length and framerate, current index 0. -/
def SyncInstructions.mk2 (length framerate : Nat) : SyncInstructions :=
  ⟨[], framerate, 0, length⟩

/-- The value of the C++ expression `length - 1` on `unsigned int`: subtraction
wraps modulo `2^32`, so for `length = 0` this is `4294967295`. (Stated by case
split to keep reduction well-behaved; `usub1_eq_wrapping` below shows it is
exactly `(length + 2^32 - 1) % 2^32`.) -/
def usub1 (length : Nat) : Nat :=
  if length = 0 then U32 - 1 else (length - 1) % U32

/-- `SyncInstructions::Next`: fails (and leaves the object untouched) when
`current_index >= length - 1` in wrapping unsigned arithmetic; otherwise
appends a `Next` instruction and increments `current_index`. -/
def SyncInstructions.Next (s : SyncInstructions) (timestamp : Nat) (relative : Bool) :
    Bool × SyncInstructions :=
  if usub1 s.length ≤ s.current_index then
    (false, s)
  else
    (true, { s with
               instructions := s.instructions ++ [⟨timestamp, SyncInstructionCode.Next, 0, relative⟩],
               current_index := (s.current_index + 1) % U32 })

/-- `SyncInstructions::Previous`: fails when `current_index < 1`; otherwise
appends a `Previous` instruction and decrements `current_index`. -/
def SyncInstructions.Previous (s : SyncInstructions) (timestamp : Nat) (relative : Bool) :
    Bool × SyncInstructions :=
  if s.current_index < 1 then
    (false, s)
  else
    (true, { s with
               instructions := s.instructions ++ [⟨timestamp, SyncInstructionCode.Previous, 0, relative⟩],
               current_index := s.current_index - 1 })

/-- `SyncInstructions::GoTo`: fails when `index >= length`; otherwise appends a
`GoTo` instruction carrying the target index and jumps `current_index` to it. -/
def SyncInstructions.GoTo (s : SyncInstructions) (timestamp index : Nat) (relative : Bool) :
    Bool × SyncInstructions :=
  if s.length ≤ index then
    (false, s)
  else
    (true, { s with
               instructions := s.instructions ++ [⟨timestamp, SyncInstructionCode.GoTo, index, relative⟩],
               current_index := index })

/-- `SyncInstructions::End`: always succeeds and appends an `End` instruction;
`current_index` is not touched. -/
def SyncInstructions.End (s : SyncInstructions) (timestamp : Nat) (relative : Bool) :
    Bool × SyncInstructions :=
  (true, { s with
             instructions := s.instructions ++ [⟨timestamp, SyncInstructionCode.End, 0, relative⟩] })

/-- One call of the public mutating API of `SyncInstructions`, used to talk
about arbitrary call sequences. -/
inductive SyncOp where
  | opNext (timestamp : Nat) (relative : Bool)
  | opPrevious (timestamp : Nat) (relative : Bool)
  | opGoTo (timestamp index : Nat) (relative : Bool)
  | opEnd (timestamp : Nat) (relative : Bool)

/-- Apply one API call to a stream, keeping the resulting state (the returned
`bool` is dropped, exactly as `SyncLoop::track` drops it). -/
def SyncInstructions.apply (s : SyncInstructions) : SyncOp → SyncInstructions
  | SyncOp.opNext ts rel => (s.Next ts rel).2
  | SyncOp.opPrevious ts rel => (s.Previous ts rel).2
  | SyncOp.opGoTo ts idx rel => (s.GoTo ts idx rel).2
  | SyncOp.opEnd ts rel => (s.End ts rel).2

theorem usub1_eq_wrapping (length : Nat) :
    usub1 length = (length + U32 - 1) % U32 := by
  simp only [usub1, U32]
  rcases Nat.eq_zero_or_pos length with h | h
  · subst h
    decide
  · rw [if_neg (by omega)]
    omega

theorem usub1_eq_sub_one {length : Nat} (h1 : 1 ≤ length) (h2 : length < U32) :
    usub1 length = length - 1 := by
  simp only [usub1, U32] at h2 ⊢
  rw [if_neg (by omega)]
  omega

theorem apply_preserves (s : SyncInstructions) (op : SyncOp)
    (hlen : s.length < U32) (hcur : s.current_index < s.length) :
    (s.apply op).length = s.length ∧ (s.apply op).framerate = s.framerate ∧
      (s.apply op).current_index < s.length := by
  cases op with
  | opNext ts rel =>
      simp only [SyncInstructions.apply, SyncInstructions.Next]
      split
      · exact ⟨rfl, rfl, hcur⟩
      · rename_i hguard
        refine ⟨rfl, rfl, ?_⟩
        have hu : usub1 s.length = s.length - 1 := usub1_eq_sub_one (by omega) hlen
        simp only [hu] at hguard
        simp only [U32] at hlen ⊢
        omega
  | opPrevious ts rel =>
      simp only [SyncInstructions.apply, SyncInstructions.Previous]
      split
      · exact ⟨rfl, rfl, hcur⟩
      · refine ⟨rfl, rfl, ?_⟩
        show s.current_index - 1 < s.length
        omega
  | opGoTo ts idx rel =>
      simp only [SyncInstructions.apply, SyncInstructions.GoTo]
      split
      · exact ⟨rfl, rfl, hcur⟩
      · rename_i hguard
        refine ⟨rfl, rfl, ?_⟩
        show idx < s.length
        omega
  | opEnd ts rel =>
      exact ⟨rfl, rfl, hcur⟩

theorem foldl_apply_inv (ops : List SyncOp) (s : SyncInstructions)
    (hlen : s.length < U32) (hcur : s.current_index < s.length) :
    (ops.foldl SyncInstructions.apply s).length = s.length ∧
      (ops.foldl SyncInstructions.apply s).current_index < s.length := by
  induction ops generalizing s with
  | nil => exact ⟨rfl, hcur⟩
  | cons op rest ih =>
      obtain ⟨hl, _, hc⟩ := apply_preserves s op hlen hcur
      have := ih (s.apply op) (hl ▸ hlen) (hl ▸ hc)
      simpa [List.foldl_cons, hl] using this

/-- C1 (amended to streams with at least one slide; `length - 1` wraps for
`length = 0`, see the counterexample): `Next` fails exactly when
`current_index ≥ length - 1`, `Previous` fails exactly when
`current_index < 1`, `GoTo k` fails exactly when `k ≥ length`, `End` always
succeeds, and every failing call leaves the stream (instructions, indices,
framerate, length) unchanged. -/
theorem sync_api_guards (s : SyncInstructions) (ts k : Nat) (rel : Bool)
    (h1 : 1 ≤ s.length) (h2 : s.length < U32) :
    ((s.Next ts rel).1 = false ↔ s.length - 1 ≤ s.current_index) ∧
      ((s.Previous ts rel).1 = false ↔ s.current_index < 1) ∧
      ((s.GoTo ts k rel).1 = false ↔ s.length ≤ k) ∧
      (s.End ts rel).1 = true ∧
      ((s.Next ts rel).1 = false → (s.Next ts rel).2 = s) ∧
      ((s.Previous ts rel).1 = false → (s.Previous ts rel).2 = s) ∧
      ((s.GoTo ts k rel).1 = false → (s.GoTo ts k rel).2 = s) := by
  have hu : usub1 s.length = s.length - 1 := usub1_eq_sub_one h1 h2
  refine ⟨?_, ?_, ?_, rfl, ?_, ?_, ?_⟩
  · simp only [SyncInstructions.Next, hu]
    split <;> simp_all
  · simp only [SyncInstructions.Previous]
    split <;> simp_all
  · simp only [SyncInstructions.GoTo]
    split <;> simp_all
  · simp only [SyncInstructions.Next, hu]
    split <;> simp_all
  · simp only [SyncInstructions.Previous]
    split <;> simp_all
  · simp only [SyncInstructions.GoTo]
    split <;> simp_all

/-- Witness for `sync_api_guards` at a stream of 3 slides, framerate 24. -/
theorem sync_api_guards_witness :
    (1 ≤ (SyncInstructions.mk2 3 24).length ∧ (SyncInstructions.mk2 3 24).length < U32) ∧
      ((((SyncInstructions.mk2 3 24).Next 7 false).1 = false ↔
          (SyncInstructions.mk2 3 24).length - 1 ≤ (SyncInstructions.mk2 3 24).current_index) ∧
        (((SyncInstructions.mk2 3 24).Previous 7 false).1 = false ↔
          (SyncInstructions.mk2 3 24).current_index < 1) ∧
        (((SyncInstructions.mk2 3 24).GoTo 7 5 false).1 = false ↔
          (SyncInstructions.mk2 3 24).length ≤ 5) ∧
        ((SyncInstructions.mk2 3 24).End 7 false).1 = true ∧
        (((SyncInstructions.mk2 3 24).Next 7 false).1 = false →
          ((SyncInstructions.mk2 3 24).Next 7 false).2 = SyncInstructions.mk2 3 24) ∧
        (((SyncInstructions.mk2 3 24).Previous 7 false).1 = false →
          ((SyncInstructions.mk2 3 24).Previous 7 false).2 = SyncInstructions.mk2 3 24) ∧
        (((SyncInstructions.mk2 3 24).GoTo 7 5 false).1 = false →
          ((SyncInstructions.mk2 3 24).GoTo 7 5 false).2 = SyncInstructions.mk2 3 24)) :=
  ⟨⟨by decide, by decide⟩, sync_api_guards (SyncInstructions.mk2 3 24) 7 5 false (by decide) (by decide)⟩

/-- Counterexample to C1 as stated: on the stream constructed with
`length = 0`, `current_index ≥ length - 1` holds (`0 ≥ 0`), yet `Next`
succeeds, because the C++ guard computes `length - 1` in wrapping unsigned
arithmetic (`0 - 1 = 4294967295`). -/
theorem sync_next_guard_fails_at_length_zero :
    ¬ ((((SyncInstructions.mk1 0).Next 5 false).1 = false) ↔
        (SyncInstructions.mk1 0).length - 1 ≤ (SyncInstructions.mk1 0).current_index) := by
  decide

/-- C3 is the behaviour the spec demands of a `length = 0` stream; the code
violates it: `Next(19)` succeeds (the wrapped guard `0 >= 4294967295` is
false), appends an instruction, sets `current_index = 1`, after which
`Previous(20)` succeeds as well. -/
theorem sync_length_zero_accepts_next :
    ((SyncInstructions.mk1 0).Next 19 false).1 = true ∧
      ((SyncInstructions.mk1 0).Next 19 false).2.instructions ≠ [] ∧
      ((SyncInstructions.mk1 0).Next 19 false).2.current_index = 1 ∧
      (((SyncInstructions.mk1 0).Next 19 false).2.Previous 20 false).1 = true := by
  decide

/-- C4 (amended to streams built with `1 ≤ length < 2^32`; for `length = 0`
the wrapped `Next` guard lets `current_index` escape, see the counterexample):
for every sequence of API calls applied to a fresh stream, `current_index`
stays in `[0, length)` and `length` itself never changes. -/
theorem sync_current_index_invariant (ops : List SyncOp) (l f : Nat)
    (h1 : 1 ≤ l) (h2 : l < U32) :
    (ops.foldl SyncInstructions.apply (SyncInstructions.mk2 l f)).current_index < l ∧
      (ops.foldl SyncInstructions.apply (SyncInstructions.mk2 l f)).length = l := by
  have h := foldl_apply_inv ops (SyncInstructions.mk2 l f) h2 (by simpa [SyncInstructions.mk2] using h1)
  exact ⟨h.2, h.1⟩

/-- Witness for `sync_current_index_invariant`: a concrete call sequence on a
fresh 3-slide stream. -/
theorem sync_current_index_invariant_witness :
    (1 ≤ 3 ∧ 3 < U32) ∧
      (([SyncOp.opNext 1 false, SyncOp.opGoTo 2 2 false, SyncOp.opPrevious 3 false,
          SyncOp.opEnd 4 false].foldl SyncInstructions.apply
          (SyncInstructions.mk2 3 24)).current_index < 3 ∧
        ([SyncOp.opNext 1 false, SyncOp.opGoTo 2 2 false, SyncOp.opPrevious 3 false,
          SyncOp.opEnd 4 false].foldl SyncInstructions.apply
          (SyncInstructions.mk2 3 24)).length = 3) :=
  ⟨⟨by decide, by decide⟩,
    sync_current_index_invariant
      [SyncOp.opNext 1 false, SyncOp.opGoTo 2 2 false, SyncOp.opPrevious 3 false,
        SyncOp.opEnd 4 false] 3 24 (by decide) (by decide)⟩

/-- Counterexample to C4 as stated: on the stream constructed with
`length = 0`, a single `Next` call drives `current_index` to 1, outside
`[0, length) = ∅`. -/
theorem sync_current_index_escapes_at_length_zero :
    ¬ (([SyncOp.opNext 0 false].foldl SyncInstructions.apply
          (SyncInstructions.mk1 0)).current_index <
        ([SyncOp.opNext 0 false].foldl SyncInstructions.apply
          (SyncInstructions.mk1 0)).length) := by
  decide

/-- `std::isspace` in the classic C locale. -/
def isSpaceC (c : Char) : Bool :=
  c = ' ' || c = '\t' || c = '\n' || c = '\x0b' || c = '\x0c' || c = '\r'

/-- Decimal digit test, as `std::num_get` classifies characters. -/
def isDigitC (c : Char) : Bool :=
  48 ≤ c.toNat && c.toNat ≤ 57

/-- Numeric value of a decimal digit character. -/
def digitVal (c : Char) : Nat :=
  c.toNat - 48

/-- Value of a digit string read most-significant first, as `std::istream`
accumulates extracted digits. -/
def digitsVal (cs : List Char) : Nat :=
  cs.foldl (fun a c => 10 * a + digitVal c) 0

/-- Decimal digits of a positive number, least-significant first, produced by
repeated division by 10; the first argument is structural fuel (any fuel
at least the number itself is enough, see `natDigitsRev_spec`). -/
def natDigitsRev : Nat → Nat → List Char
  | 0, _ => []
  | _ + 1, 0 => []
  | fuel + 1, n + 1 =>
      Char.ofNat (48 + (n + 1) % 10) :: natDigitsRev fuel ((n + 1) / 10)

/-- `std::to_string` on `unsigned int` (also `operator<<`): the decimal
representation, no sign, no padding. -/
def to_string_u (n : Nat) : List Char :=
  if n = 0 then ['0'] else (natDigitsRev n n).reverse

/-- `to_string_u` packaged as a `String`. -/
def toStrN (n : Nat) : String :=
  ⟨to_string_u n⟩

/-- `pad` (util): prepend `fill` until the text reaches `size` characters.
The fill count `size - text.length()` is computed in unsigned arithmetic, so
it wraps to a huge value when the text is already longer than `size`; the
`if (nfill < 0)` guard in the source is dead code because `nfill` is
unsigned. -/
def pad (text : List Char) (fill : Char) (size : Nat) : List Char :=
  let nfill : Nat := (((size : Int) - (text.length : Int)) % (U32 : Int)).toNat
  List.replicate nfill fill ++ text

/-- The loop of `nchars` (util): `while (x >= power) { power *= 10; nchars++; }`
on `unsigned int`, so `power` wraps modulo `2^32`; from `10^32` on the wrapped
power is 0 and the loop can never exit. Fuel 34 separates the two behaviours
exactly: a terminating run exits at one of the powers `10^0 .. 10^31 mod 2^32`
(at most 33 condition checks), and a run that survives all of them has reached
`power = 0` and loops forever, which this model maps to `none`. -/
def ncharsLoop : Nat → Nat → Nat → Nat → Option Nat
  | 0, _, _, _ => none
  | fuel + 1, x, power, count =>
      if power ≤ x then ncharsLoop fuel x (power * 10 % U32) (count + 1) else some count

/-- `nchars` (util): the number of characters needed to print `x` in decimal;
`none` models the non-termination of the source loop (reached for
`x ≥ 4135583744`, the largest value of `10^k mod 2^32`). -/
def nchars (x : Nat) : Option Nat :=
  if x = 0 then some 1 else ncharsLoop 34 x 1 0

/-- `index2timestamp` (util): render a frame index as `HH:MM:SS.FF…F` with the
frame field padded to `nchars framerate` digits; returns `""` for framerate 0.
`none` models the non-termination inherited from `nchars`. -/
def index2timestamp (index framerate : Nat) : Option String :=
  if framerate = 0 then
    some ""
  else
    let frames := index % framerate
    let totalseconds := index / framerate
    let seconds := totalseconds % 60
    let totalminutes := totalseconds / 60
    let minutes := totalminutes % 60
    let hours := totalminutes / 60
    (nchars framerate).map fun nc =>
      ⟨pad (to_string_u hours) '0' 2 ++
        ':' :: (pad (to_string_u minutes) '0' 2 ++
          ':' :: (pad (to_string_u seconds) '0' 2 ++
            '.' :: pad (to_string_u frames) '0' nc))⟩

/-- The state of a `std::istream` as the parsing code observes it: the
remaining characters and the `skipws` formatting flag. Every stream here has
`exceptions(failbit)` enabled, so a failed extraction (`none`) is a thrown
`std::ios_base::failure`. -/
structure IStream where
  data : List Char
  skipws : Bool
deriving DecidableEq

/-- `operator>>` into an `unsigned int`: skip whitespace when the stream's
`skipws` flag is set, then take the maximal run of digits; no digits, or a
value out of the unsigned range, is a failure. (The grammars parsed here
never carry a sign, so `num_get`'s sign handling does not arise.) -/
def read_uint (s : IStream) : Option (Nat × IStream) :=
  let cs1 := if s.skipws then s.data.dropWhile isSpaceC else s.data
  let ds := cs1.takeWhile isDigitC
  if ds.isEmpty then none
  else if U32 ≤ digitsVal ds then none
  else some (digitsVal ds, ⟨cs1.dropWhile isDigitC, s.skipws⟩)

/-- `operator>>` into a `bool` with `boolalpha` off: the characters are read
as for a `long` (optional sign, then the maximal digit run); value 0 stores
`false`, value 1 stores `true`, and any other value — or no digits at all —
sets `failbit`, which throws here. -/
def read_bool (s : IStream) : Option (Bool × IStream) :=
  let cs1 := if s.skipws then s.data.dropWhile isSpaceC else s.data
  let signed : Bool × List Char :=
    match cs1 with
    | '-' :: rest => (true, rest)
    | '+' :: rest => (false, rest)
    | _ => (false, cs1)
  let ds := signed.2.takeWhile isDigitC
  if ds.isEmpty then none
  else
    let v : Int := if signed.1 then -(digitsVal ds : Int) else (digitsVal ds : Int)
    let rest : IStream := ⟨signed.2.dropWhile isDigitC, s.skipws⟩
    if v = 0 then some (false, rest)
    else if v = 1 then some (true, rest)
    else none

/-- Character-by-character match of the word part of a skip literal: a
mismatch (including end of input, where `peek` returns EOF) is a failure. -/
def matchLiteral : List Char → List Char → Option (List Char)
  | [], cs => some cs
  | _ :: _, [] => none
  | l :: ls, c :: cs => if c = l then matchLiteral ls cs else none

/-- `operator>>(istream, Skip)` (util; the lowercase `skip` copy in
`SyncInstructions.cpp` is identical). The body is
`bool skipws = stream.skipws; stream >> std::noskipws; if (stream.skipws)
{ …consume whitespace, suffix-check, pick the word… } else { … }
…match the remaining characters…; stream >> skipws;`. Both reads of
`stream.skipws` name the *static constant* `std::ios_base::skipws` (nonzero),
not the stream's flag state, so the local bool starts `true`, the
whitespace-consuming branch is always taken (the verbatim-match else branch
is dead code), and the flag is left cleared. The final `stream >> skipws;` is
not the intended flag restore but an *extraction into the now-dead local
bool*: running with `noskipws`, it consumes the maximal signed digit run and
accepts only the values 0 and 1 — anything else, including a non-digit next
character, sets `failbit` and throws. -/
def skipRead (lit : List Char) (s : IStream) : Option IStream :=
  let literalws := lit.takeWhile isSpaceC
  let literalword := lit.dropWhile isSpaceC
  let streamws := s.data.takeWhile isSpaceC
  if literalws.isSuffixOf streamws then
    match matchLiteral literalword (s.data.dropWhile isSpaceC) with
    | none => none
    | some rest => (read_bool ⟨rest, false⟩).map (fun br => br.2)
  else
    none

/-- `timestamp2index` (util): parse `H:M:S.F` from an `istringstream` with
`exceptions(failbit)` enabled and `noskipws` set. Because every `Skip`
extraction ends with the operator's stray bool read, the digit run after a
matched `:` or `.` is swallowed (or, if its value is not 0 or 1, already a
failure), so the next field extraction starts on a non-digit and throws: the
function fails on every canonical `HH:MM:SS.FF…` timestamp. -/
def timestamp2index (timestamp : String) (framerate : Nat) : Option Nat := do
  let r0 : IStream := ⟨timestamp.toList, false⟩
  let (hours, r1) ← read_uint r0
  let r2 ← skipRead [':'] r1
  let (minutes, r3) ← read_uint r2
  let r4 ← skipRead [':'] r3
  let (seconds, r5) ← read_uint r4
  let r6 ← skipRead ['.'] r5
  let (frames, _) ← read_uint r6
  pure ((((hours * 60 + minutes) * 60 + seconds) * framerate + frames) % U32)

/-- The integer value `static_cast<int>(code)` of a `SyncInstructionCode`. -/
def codeInt : SyncInstructionCode → Nat
  | SyncInstructionCode.Undefined => 0
  | SyncInstructionCode.Next => 1
  | SyncInstructionCode.Previous => 2
  | SyncInstructionCode.GoTo => 3
  | SyncInstructionCode.End => 4

/-- One instruction line of `SyncInstructions::ToString` (the
`SyncInstruction` variant). Note the `+` marker: the source tests
`instruction.relative < 0`, which compares the `bool` (promoted to 0 or 1)
against 0 and is therefore false for both flag values — no line ever gets a
`+`. -/
def instructionLine (framerate : Nat) (ins : SyncInstruction) : Option String := do
  let mark : String := if (if ins.relative then (1 : Int) else 0) < 0 then "+" else ""
  let stamp : String ←
    if framerate ≠ 0 then index2timestamp ins.timestamp framerate
    else some (toStrN ins.timestamp)
  let body : String :=
    match ins.code with
    | SyncInstructionCode.GoTo => "go to " ++ toStrN ((ins.data + 1) % U32)
    | SyncInstructionCode.Next => "next"
    | SyncInstructionCode.Previous => "previous"
    | SyncInstructionCode.End => "end"
    | SyncInstructionCode.Undefined =>
        "unrecognized(" ++ toStrN (codeInt SyncInstructionCode.Undefined) ++ ")"
  pure ("[" ++ mark ++ stamp ++ "]: " ++ body ++ "\n")

/-- `SyncInstructions::ToString` (the `SyncInstruction` variant): the
`nslides`/`framerate`/`ninstructions` header followed by one line per
instruction. `none` models the non-termination inherited from `nchars`. -/
def SyncInstructions.ToString (s : SyncInstructions) : Option String := do
  let lines ← s.instructions.mapM (instructionLine s.framerate)
  pure ("nslides = " ++ toStrN s.length ++ "\n" ++
        "framerate = " ++ toStrN s.framerate ++ "\n" ++
        "ninstructions = " ++ toStrN s.instructions.length ++ "\n" ++
        String.join lines)

/-- `std::stoi`: skip whitespace, optional sign, then digits; no digits or a
value outside `int` range is a failure (`std::invalid_argument` or
`std::out_of_range`). -/
def stoi (cs : List Char) : Option Int :=
  let cs1 := cs.dropWhile isSpaceC
  match cs1 with
  | '+' :: rest =>
      let ds := rest.takeWhile isDigitC
      if ds.isEmpty then none
      else if 2147483647 < digitsVal ds then none
      else some (digitsVal ds : Int)
  | '-' :: rest =>
      let ds := rest.takeWhile isDigitC
      if ds.isEmpty then none
      else if 2147483648 < digitsVal ds then none
      else some (-(digitsVal ds : Int))
  | _ =>
      let ds := cs1.takeWhile isDigitC
      if ds.isEmpty then none
      else if 2147483647 < digitsVal ds then none
      else some (digitsVal ds : Int)

/-- `std::getline(stream, str, '\n')` with `exceptions(failbit)` enabled:
extract characters up to and including the delimiter (the delimiter is
dropped from the result); extracting nothing at all is a failure. -/
def getlineLF (cs : List Char) : Option (List Char × List Char) :=
  if cs.isEmpty then none
  else some (cs.takeWhile (fun c => c ≠ '\n'), (cs.dropWhile (fun c => c ≠ '\n')).drop 1)

/-- One iteration of the parsing loop in
`SyncInstructions::SyncInstructions(std::istream&)`: returns the instruction
to append (or `none` for a line the loop `continue`s over) and the rest of the
stream; the outer `none` is a thrown parse failure. `peek`, `get`, `read` and
`getline` are unformatted and ignore the `skipws` flag. -/
def parseInstructionLine (framerate length : Nat) (s : IStream) :
    Option (Option SyncInstruction × IStream) := do
  let s1 ← skipRead ['['] s
  let s2 ← skipRead [] s1
  let relative : Bool := s2.data.head? = some '+'
  let s3 : IStream := if relative then ⟨s2.data.drop 1, s2.skipws⟩ else s2
  let (timestamp, s4) ←
    if framerate ≠ 0 then do
      if s3.data.length < 11 then none
      else do
        let ts ← timestamp2index ⟨s3.data.take 11⟩ framerate
        pure (ts, (⟨s3.data.drop 11, s3.skipws⟩ : IStream))
    else
      read_uint s3
  let s5 ← skipRead [']'] s4
  let s6 ← skipRead [':'] s5
  let s7 ← skipRead [] s6
  let (line, rest8) ← getlineLF s7.data
  let s8 : IStream := ⟨rest8, s7.skipws⟩
  if line = "next".toList then
    pure (some ⟨timestamp, SyncInstructionCode.Next, 0, relative⟩, s8)
  else if line = "previous".toList then
    pure (some ⟨timestamp, SyncInstructionCode.Previous, 0, relative⟩, s8)
  else if line = "end".toList then
    pure (some ⟨timestamp, SyncInstructionCode.End, 0, relative⟩, s8)
  else if line.take 6 = "go to ".toList then do
    let v ← stoi (line.drop 6)
    let data : Nat := ((v - 1) % (U32 : Int)).toNat
    if length ≤ data then
      pure (none, s8)
    else
      pure (some ⟨timestamp, SyncInstructionCode.GoTo, data, relative⟩, s8)
  else
    pure (none, s8)

/-- The `for (i < ninstructions)` loop of the stream constructor. -/
def parseInstructionLines (framerate length : Nat) :
    Nat → IStream → List SyncInstruction → Option (List SyncInstruction × IStream)
  | 0, s, acc => some (acc, s)
  | n + 1, s, acc => do
      let (ins, s1) ← parseInstructionLine framerate length s
      parseInstructionLines framerate length n s1 (acc ++ ins.toList)

/-- `SyncInstructions::SyncInstructions(std::istream&)` (the
`SyncInstruction` variant, extracting through util's `Skip`): enable
`exceptions(failbit)`, parse the three header lines, then `ninstructions`
instruction lines; `current_index` is left at 0. The descriptor stream
starts with `skipws` set (the stream default). -/
def SyncInstructions.parse (descriptor : String) : Option SyncInstructions := do
  let s0 : IStream := ⟨descriptor.toList, true⟩
  let s1 ← skipRead "nslides".toList s0
  let s2 ← skipRead ['='] s1
  let (length, s3) ← read_uint s2
  let s4 ← skipRead ['\n'] s3
  let s5 ← skipRead "framerate".toList s4
  let s6 ← skipRead ['='] s5
  let (framerate, s7) ← read_uint s6
  let s8 ← skipRead ['\n'] s7
  let s9 ← skipRead "ninstructions".toList s8
  let s10 ← skipRead ['='] s9
  let (ninstructions, s11) ← read_uint s10
  let s12 ← skipRead ['\n'] s11
  let (instrs, _) ← parseInstructionLines framerate length ninstructions s12 []
  pure ⟨instrs, framerate, 0, length⟩

/-- C2 is the behaviour the spec demands (`parse(serialize(s)) == s`); the
code violates it: the stream constructor cannot parse the serializer's own
output at all. Its first extraction, `Skip("nslides")`, matches the word and
then executes the operator's trailing `stream >> skipws;` — an extraction
into a local bool — which, running with `noskipws`, meets the space of
`" = 2"` where it needs digits, sets `failbit` and throws. The round trip
therefore produces no stream, let alone an equal one. -/
theorem serialize_parse_throws :
    SyncInstructions.ToString (((SyncInstructions.mk2 2 0).End 5 true).2) =
        some "nslides = 2\nframerate = 0\nninstructions = 1\n[5]: end\n" ∧
      SyncInstructions.parse "nslides = 2\nframerate = 0\nninstructions = 1\n[5]: end\n" =
        none := by
  decide

/-- C5 is the behaviour the spec demands (`+` iff `relative == true`); the
code violates it: an instruction appended with `relative = true` is written
without any `+` inside the brackets, because the serializer tests
`instruction.relative < 0`, which is false for both values of the bool. -/
theorem toString_never_writes_relative_marker :
    SyncInstructions.ToString (((SyncInstructions.mk2 3 0).Next 7 true).2) =
        some "nslides = 3\nframerate = 0\nninstructions = 1\n[7]: next\n" ∧
      (((SyncInstructions.mk2 3 0).Next 7 true).2).instructions.map SyncInstruction.relative =
        [true] ∧
      '+' ∉ "nslides = 3\nframerate = 0\nninstructions = 1\n[7]: next\n".toList := by
  decide

/-- `SyncLoop::frameskip` (Loops.hpp): frames discarded per processed frame. -/
def frameskip : Nat := 7

/-- The part of `SyncLoop` state that `next_frame` reads and writes:
`frame_index`, `coarse_index` and `length` are the `unsigned int` members of
the class; `pos` is the decoder position of the borrowed `cv::VideoCapture`
(the number of frames consumed so far by `>>` and `grab()`), which determines
whether a read yields a non-empty frame. -/
structure SyncLoopState where
  frame_index : Nat
  coarse_index : Nat
  length : Nat
  pos : Nat
deriving DecidableEq

/-- `SyncLoop::next_frame`: return an empty frame once `frame_index ≥ length`;
otherwise read one frame (non-empty exactly when the source still has one,
i.e. `pos < length`), discard `frameskip` frames via `grab()`, and advance
`coarse_index` by 1 and `frame_index` by `frameskip + 1` (both `unsigned`).
The returned `Bool` is the non-emptiness of the returned `cv::Mat`. -/
def next_frame (s : SyncLoopState) : Bool × SyncLoopState :=
  if s.length ≤ s.frame_index then
    (false, s)
  else
    (decide (s.pos < s.length),
      { frame_index := (s.frame_index + (frameskip + 1)) % U32,
        coarse_index := (s.coarse_index + 1) % U32,
        length := s.length,
        pos := s.pos + (frameskip + 1) })

/-- The `SyncLoop` state after `n` calls of `next_frame`, starting from
`frame_index = 0`, `coarse_index = 0` on a source of `len` frames. -/
def nthSyncState (len : Nat) : Nat → SyncLoopState
  | 0 => ⟨0, 0, len, 0⟩
  | n + 1 => (next_frame (nthSyncState len n)).2

theorem nthSyncState_le_count (len n : Nat) (hlen : len < U32)
    (hn : n ≤ (len + 7) / 8) :
    nthSyncState len n = ⟨8 * n % U32, n, len, 8 * n⟩ := by
  induction n with
  | zero => rfl
  | succ m ih =>
      have hm : m ≤ (len + 7) / 8 := by omega
      have h8m : 8 * m < len := by omega
      have hmod : 8 * m % U32 = 8 * m := by
        refine Nat.mod_eq_of_lt ?_
        simp only [U32] at hlen ⊢
        omega
      rw [nthSyncState, ih hm]
      simp only [next_frame, hmod]
      rw [if_neg (by omega)]
      simp only [U32] at hlen
      simp only [frameskip, SyncLoopState.mk.injEq, U32, and_true, true_and]
      omega

theorem nthSyncState_frozen (len m : Nat) (hlen : len + 7 < U32) :
    nthSyncState len ((len + 7) / 8 + m) = nthSyncState len ((len + 7) / 8) := by
  induction m with
  | zero => rfl
  | succ k ih =>
      have hstate := nthSyncState_le_count len ((len + 7) / 8) (by omega) (by omega)
      have heq : (len + 7) / 8 + (k + 1) = ((len + 7) / 8 + k) + 1 := by omega
      have hmod : 8 * ((len + 7) / 8) % U32 = 8 * ((len + 7) / 8) := by
        refine Nat.mod_eq_of_lt ?_
        simp only [U32] at hlen ⊢
        omega
      rw [heq, nthSyncState, ih, hstate]
      simp only [next_frame, hmod]
      rw [if_pos (by omega)]

theorem nthSyncState_wrapping (len n : Nat) (hbig : U32 ≤ len + 7) :
    nthSyncState len n = ⟨8 * n % U32, n % U32, len, 8 * n⟩ := by
  induction n with
  | zero => rfl
  | succ m ih =>
      have h1 : 8 * m % U32 < U32 := Nat.mod_lt _ (by simp [U32])
      have h2 : 8 * m % U32 % 8 = 0 := by
        rw [Nat.mod_mod_of_dvd (8 * m) (show (8 : Nat) ∣ U32 from ⟨536870912, rfl⟩)]
        exact Nat.mul_mod_right 8 m
      have hguard : 8 * m % U32 < len := by
        simp only [U32] at h1 h2 hbig ⊢
        omega
      rw [nthSyncState, ih]
      simp only [next_frame]
      rw [if_neg (by omega)]
      simp only [U32] at h1 h2
      simp only [frameskip, SyncLoopState.mk.injEq, U32, and_true, true_and]
      omega

/-- C9: starting from `frame_index = 0` on a source of `len` frames
(`len < 2^32`, the type of the member), the `n`-th call of `next_frame`
returns a non-empty frame exactly when `n < ⌈len / (frameskip+1)⌉ =
⌈len / 8⌉ = (len+7)/8` — so the calls yield exactly `⌈len/8⌉` non-empty
frames and an empty frame on every further call — and each non-empty call
advances `frame_index` by `frameskip + 1 = 8` and `coarse_index` by 1. -/
theorem next_frame_count (len n : Nat) (hlen : len < U32) :
    ((next_frame (nthSyncState len n)).1 = true ↔ n < (len + 7) / 8) ∧
      (n < (len + 7) / 8 →
        (nthSyncState len (n + 1)).frame_index =
            ((nthSyncState len n).frame_index + (frameskip + 1)) % U32 ∧
          (nthSyncState len (n + 1)).coarse_index =
            (nthSyncState len n).coarse_index + 1) := by
  constructor
  · by_cases hn : n < (len + 7) / 8
    · have hstate := nthSyncState_le_count len n hlen (by omega)
      have hmod : 8 * n % U32 = 8 * n := by
        refine Nat.mod_eq_of_lt ?_
        simp only [U32] at hlen ⊢
        omega
      rw [hstate]
      simp only [next_frame, hmod]
      rw [if_neg (by omega)]
      simp only [hn, iff_true, decide_eq_true_eq]
      omega
    · simp only [hn, iff_false]
      by_cases hbig : U32 ≤ len + 7
      · have hstate := nthSyncState_wrapping len n hbig
        rw [hstate]
        simp only [next_frame]
        split
        · simp
        · simp only [decide_eq_true_eq]
          omega
      · obtain ⟨m, hm⟩ : ∃ m, n = (len + 7) / 8 + m := ⟨n - (len + 7) / 8, by omega⟩
        have hmod : 8 * ((len + 7) / 8) % U32 = 8 * ((len + 7) / 8) := by
          refine Nat.mod_eq_of_lt ?_
          simp only [U32] at hbig ⊢
          omega
        rw [hm, nthSyncState_frozen len m (by omega),
          nthSyncState_le_count len ((len + 7) / 8) hlen (by omega)]
        simp only [next_frame, hmod]
        rw [if_pos (by omega)]
        simp
  · intro hn
    have hstate := nthSyncState_le_count len n hlen (by omega)
    have hstate1 := nthSyncState_le_count len (n + 1) hlen (by omega)
    rw [hstate, hstate1]
    refine ⟨?_, ?_⟩
    · show 8 * (n + 1) % U32 = (8 * n % U32 + (frameskip + 1)) % U32
      simp only [frameskip, U32]
      omega
    · show n + 1 = n + 1
      rfl

/-- Witness for `next_frame_count` on a 20-frame source at the third call. -/
theorem next_frame_count_witness :
    (20 < U32) ∧
      (((next_frame (nthSyncState 20 2)).1 = true ↔ 2 < (20 + 7) / 8) ∧
        (2 < (20 + 7) / 8 →
          (nthSyncState 20 (2 + 1)).frame_index =
              ((nthSyncState 20 2).frame_index + (frameskip + 1)) % U32 ∧
            (nthSyncState 20 (2 + 1)).coarse_index =
              (nthSyncState 20 2).coarse_index + 1)) :=
  ⟨by decide, next_frame_count 20 2 (by decide)⟩

/-- An IEEE `double` as the cost model manipulates it: finite values are exact
rationals, plus the special values. Rounding of finite arithmetic is not
modelled (finite operations are exact), and `std::sqrt` on a finite argument
is a parameter wherever it occurs. -/
inductive FP where
  | fin : ℚ → FP
  | inf : FP
  | ninf : FP
  | nan : FP
deriving DecidableEq

/-- `std::isnan`. -/
def FP.isNan : FP → Bool
  | FP.nan => true
  | _ => false

/-- IEEE addition (`inf + (-inf)` is NaN; NaN propagates). -/
def FP.add : FP → FP → FP
  | FP.nan, _ => FP.nan
  | _, FP.nan => FP.nan
  | FP.inf, FP.ninf => FP.nan
  | FP.ninf, FP.inf => FP.nan
  | FP.inf, _ => FP.inf
  | _, FP.inf => FP.inf
  | FP.ninf, _ => FP.ninf
  | _, FP.ninf => FP.ninf
  | FP.fin a, FP.fin b => FP.fin (a + b)

/-- IEEE subtraction (`inf - inf` is NaN; NaN propagates). -/
def FP.sub : FP → FP → FP
  | FP.nan, _ => FP.nan
  | _, FP.nan => FP.nan
  | FP.inf, FP.inf => FP.nan
  | FP.ninf, FP.ninf => FP.nan
  | FP.inf, _ => FP.inf
  | FP.ninf, _ => FP.ninf
  | FP.fin _, FP.inf => FP.ninf
  | FP.fin _, FP.ninf => FP.inf
  | FP.fin a, FP.fin b => FP.fin (a - b)

/-- IEEE multiplication (`inf * 0` is NaN; NaN propagates). -/
def FP.mul : FP → FP → FP
  | FP.nan, _ => FP.nan
  | _, FP.nan => FP.nan
  | FP.inf, FP.inf => FP.inf
  | FP.inf, FP.ninf => FP.ninf
  | FP.ninf, FP.inf => FP.ninf
  | FP.ninf, FP.ninf => FP.inf
  | FP.inf, FP.fin b => if b = 0 then FP.nan else if 0 < b then FP.inf else FP.ninf
  | FP.fin a, FP.inf => if a = 0 then FP.nan else if 0 < a then FP.inf else FP.ninf
  | FP.ninf, FP.fin b => if b = 0 then FP.nan else if 0 < b then FP.ninf else FP.inf
  | FP.fin a, FP.ninf => if a = 0 then FP.nan else if 0 < a then FP.ninf else FP.inf
  | FP.fin a, FP.fin b => FP.fin (a * b)

/-- IEEE division (`0/0` and `inf/inf` are NaN, `x/0` for `x ≠ 0` is a signed
infinity; `ℚ` has no signed zero, so a zero divisor behaves as `+0`). -/
def FP.div : FP → FP → FP
  | FP.nan, _ => FP.nan
  | _, FP.nan => FP.nan
  | FP.inf, FP.inf => FP.nan
  | FP.inf, FP.ninf => FP.nan
  | FP.ninf, FP.inf => FP.nan
  | FP.ninf, FP.ninf => FP.nan
  | FP.inf, FP.fin b => if 0 ≤ b then FP.inf else FP.ninf
  | FP.ninf, FP.fin b => if 0 ≤ b then FP.ninf else FP.inf
  | FP.fin _, FP.inf => FP.fin 0
  | FP.fin _, FP.ninf => FP.fin 0
  | FP.fin a, FP.fin b =>
      if b = 0 then (if a = 0 then FP.nan else if 0 < a then FP.inf else FP.ninf)
      else FP.fin (a / b)

/-- `std::sqrt` lifted to the modelled values: the rounded finite value is the
parameter `sq`; a negative argument or `-inf` gives NaN, `+inf` gives `+inf`. -/
def FP.sqrt (sq : ℚ → ℚ) : FP → FP
  | FP.nan => FP.nan
  | FP.inf => FP.inf
  | FP.ninf => FP.nan
  | FP.fin q => if q < 0 then FP.nan else FP.fin (sq q)

/-- `Quad` (Quad.hpp/Quad.cpp): four vertices, the four precomputed outward
edge normals `(dy, -dx)`, the precomputed area and the convex-clockwise flag.
Coordinates are `double`s modelled as exact rationals. -/
structure Quad where
  x1 : ℚ
  y1 : ℚ
  x2 : ℚ
  y2 : ℚ
  x3 : ℚ
  y3 : ℚ
  x4 : ℚ
  y4 : ℚ
  nx1 : ℚ
  ny1 : ℚ
  nx2 : ℚ
  ny2 : ℚ
  nx3 : ℚ
  ny3 : ℚ
  nx4 : ℚ
  ny4 : ℚ
  area : ℚ
  convexclockwise : Bool
deriving DecidableEq

/-- `Quad::Quad()`: the all-zero degenerate quad; its convex-clockwise flag is
initialized to `true`. -/
def Quad.default : Quad :=
  ⟨0, 0, 0, 0, 0, 0, 0, 0, 0, 0, 0, 0, 0, 0, 0, 0, 0, true⟩

/-- `Quad::Quad(double x1, ..., double y4)`: precompute the edge normals, the
convex-clockwise flag (all adjacent normal cross products non-positive) and
the area (the sum of the two triangle cross products, negated — the source
comment says to halve these cross products, but the code never does). -/
def Quad.ofCoords (x1 y1 x2 y2 x3 y3 x4 y4 : ℚ) : Quad :=
  let nx1 := y2 - y1
  let ny1 := x1 - x2
  let nx2 := y3 - y2
  let ny2 := x2 - x3
  let nx3 := y4 - y3
  let ny3 := x3 - x4
  let nx4 := y1 - y4
  let ny4 := x4 - x1
  { x1 := x1, y1 := y1, x2 := x2, y2 := y2, x3 := x3, y3 := y3, x4 := x4, y4 := y4,
    nx1 := nx1, ny1 := ny1, nx2 := nx2, ny2 := ny2,
    nx3 := nx3, ny3 := ny3, nx4 := nx4, ny4 := ny4,
    area := -(nx1 * ny2 - nx2 * ny1) + -(nx3 * ny4 - nx4 * ny3),
    convexclockwise :=
      decide (nx1 * ny2 - nx2 * ny1 ≤ 0) && decide (nx2 * ny3 - nx3 * ny2 ≤ 0) &&
        decide (nx3 * ny4 - nx4 * ny3 ≤ 0) && decide (nx4 * ny1 - nx1 * ny4 ≤ 0) }

/-- `Quad::ConvexClockwise()`. -/
def Quad.ConvexClockwise (q : Quad) : Bool :=
  q.convexclockwise

/-- `Quad::Area()`. -/
def Quad.Area (q : Quad) : ℚ :=
  q.area

/-- A non-empty 3×3 `cv::Mat` homography of doubles, entries as exact
rationals, row-major. -/
def Mat3 : Type :=
  Fin 3 → Fin 3 → ℚ

/-- `Quad::Perspective`: push each vertex through the homography and
dehomogenize; the result is a freshly constructed `Quad`. (A zero third
homogeneous coordinate, which IEEE maps to infinities, is `1/0 = 0` in the
rational idealization; none of the verified properties evaluates that case.) -/
def Quad.Perspective (q : Quad) (homography : Mat3) : Quad :=
  let p := fun (x y : ℚ) (r : Fin 3) => homography r 0 * x + homography r 1 * y + homography r 2
  Quad.ofCoords
    (p q.x1 q.y1 0 / p q.x1 q.y1 2) (p q.x1 q.y1 1 / p q.x1 q.y1 2)
    (p q.x2 q.y2 0 / p q.x2 q.y2 2) (p q.x2 q.y2 1 / p q.x2 q.y2 2)
    (p q.x3 q.y3 0 / p q.x3 q.y3 2) (p q.x3 q.y3 1 / p q.x3 q.y3 2)
    (p q.x4 q.y4 0 / p q.x4 q.y4 2) (p q.x4 q.y4 1 / p q.x4 q.y4 2)

/-- `quadperspective` (SyncLoop.cpp): a `cv::Mat` homography may be empty
(`none`); then the quad is sunk to the origin (the default all-zero `Quad`)
instead of failing. -/
def quadperspective (quad : Quad) (homography : Option Mat3) : Quad :=
  match homography with
  | none => Quad.default
  | some h => quad.Perspective h

/-- `cv::DMatch` as the cost model reads it: indices into the two keypoint
arrays plus the descriptor distance. -/
structure DMatch where
  queryIdx : Nat
  trainIdx : Nat
  distance : ℚ
deriving DecidableEq

/-- `min_matchsize` (SyncLoop.cpp): minimum number of matches for a good
matching. -/
def min_matchsize : Nat := 5

/-- `great_matchsize` (SyncLoop.cpp): number of matches that is good enough
regardless of the keypoint-count ratios. -/
def great_matchsize : Nat := 20

/-- `quaddeviation` (SyncLoop.cpp): per-vertex displacement between two quads;
returns `(deviation, deformation)` — the length of the average displacement,
and the largest displacement length after subtracting that average (the
source writes the latter through an out parameter). `sq` is `std::sqrt`. -/
def quaddeviation (sq : ℚ → ℚ) (first second : Quad) : ℚ × ℚ :=
  let d1x := second.x1 - first.x1
  let d1y := second.y1 - first.y1
  let d2x := second.x2 - first.x2
  let d2y := second.y2 - first.y2
  let d3x := second.x3 - first.x3
  let d3y := second.y3 - first.y3
  let d4x := second.x4 - first.x4
  let d4y := second.y4 - first.y4
  let avgx := (d1x + d2x + d3x + d4x) / 4
  let avgy := (d1y + d2y + d3y + d4y) / 4
  let dev1 := (d1x - avgx) * (d1x - avgx) + (d1y - avgy) * (d1y - avgy)
  let dev2 := (d2x - avgx) * (d2x - avgx) + (d2y - avgy) * (d2y - avgy)
  let dev3 := (d3x - avgx) * (d3x - avgx) + (d3y - avgy) * (d3y - avgy)
  let dev4 := (d4x - avgx) * (d4x - avgx) + (d4y - avgy) * (d4y - avgy)
  let m1 := if dev1 > 0 then dev1 else 0
  let m2 := if dev2 > m1 then dev2 else m1
  let m3 := if dev3 > m2 then dev3 else m2
  let m4 := if dev4 > m3 then dev4 else m3
  (sq (avgx * avgx + avgy * avgy), sq m4)

/-- The reprojection error of one match inside `matchcost`: project the query
keypoint through the homography, dehomogenize (IEEE division), and take the
Euclidean distance to the train keypoint. `sq` is `std::sqrt`. -/
def reprojerror (sq : ℚ → ℚ) (keypoints1 keypoints2 : List (ℚ × ℚ)) (homography : Mat3)
    (m : DMatch) : FP :=
  let kp := keypoints1.getD m.queryIdx (0, 0)
  let px := homography 0 0 * kp.1 + homography 0 1 * kp.2 + homography 0 2
  let py := homography 1 0 * kp.1 + homography 1 1 * kp.2 + homography 1 2
  let pz := homography 2 0 * kp.1 + homography 2 1 * kp.2 + homography 2 2
  let kp2 := keypoints2.getD m.trainIdx (0, 0)
  let dx := FP.sub (FP.div (FP.fin px) (FP.fin pz)) (FP.fin kp2.1)
  let dy := FP.sub (FP.div (FP.fin py) (FP.fin pz)) (FP.fin kp2.2)
  FP.sqrt sq (FP.add (FP.mul dx dx) (FP.mul dy dy))

/-- `matchcost` (SyncLoop.cpp): score a candidate (keypoints, matches,
homography, pose pair). Hard rejections return `+inf`: fewer than
`min_matchsize` matches, a pose that is not convex-clockwise, a pose area
below `10*10` or above `5000*5000`, or fewer than `min_matchsize` matches
left after discarding NaN reprojection errors. Otherwise the mean remaining
error plus the deviation and deformation costs. `sq` is `std::sqrt`. -/
def matchcost (sq : ℚ → ℚ) (keypoints1 keypoints2 : List (ℚ × ℚ)) (matchlist : List DMatch)
    (homography : Mat3) (slidepose1 slidepose2 : Quad) : FP :=
  if matchlist.length < min_matchsize then FP.inf
  else if !slidepose1.ConvexClockwise || !slidepose2.ConvexClockwise then FP.inf
  else if slidepose1.Area < 10 * 10 ∨ slidepose2.Area < 10 * 10 then FP.inf
  else if slidepose1.Area > 5000 * 5000 ∨ slidepose2.Area > 5000 * 5000 then FP.inf
  else
    let deviation0 : ℚ := 5
    let deformation0 : ℚ := 6 - 1
    let dd := quaddeviation sq slidepose1 slidepose2
    let deviationcost : ℚ := if dd.1 > deviation0 then dd.1 - deviation0 else 0
    let deformationcost : ℚ :=
      if dd.2 > deformation0 then (dd.2 - deformation0) * (dd.2 - deformation0) else 0
    let costs := matchlist.map (reprojerror sq keypoints1 keypoints2 homography)
    let total := costs.foldl (fun acc c => if c.isNan then acc else FP.add acc c) (FP.fin 0)
    let matchsize : Int := (matchlist.length : Int) - ((costs.filter FP.isNan).length : Int)
    if matchsize < (min_matchsize : Int) then FP.inf
    else
      FP.add (FP.add (FP.div total (FP.fin (matchsize : ℚ))) (FP.fin deviationcost))
        (FP.fin deformationcost)

theorem length_filter_not_add (p : α → Bool) (l : List α) :
    (l.filter p).length + (l.filter (fun a => !(p a))).length = l.length := by
  induction l with
  | nil => rfl
  | cons a t ih =>
      by_cases h : p a = true <;> simp [List.filter_cons, h, ← ih] <;> omega

theorem length_filter_map_eq (f : α → β) (p : β → Bool) (l : List α) :
    ((l.map f).filter p).length = (l.filter (fun a => p (f a))).length := by
  induction l with
  | nil => rfl
  | cons a t ih =>
      by_cases h : p (f a) = true <;> simp [List.filter_cons, h, ih]

/-- C6: `matchcost` returns `+inf` whenever the match list has fewer than 5
entries, or fewer than 5 entries remain after discarding matches whose
reprojection error is NaN, or either pose is not convex-clockwise, or either
pose's area is below 100 px² or above 25,000,000 px² — independently of the
remaining inputs, including the square-root rounding `sq`. -/
theorem matchcost_hard_rejections (sq : ℚ → ℚ) (keypoints1 keypoints2 : List (ℚ × ℚ))
    (matchlist : List DMatch) (homography : Mat3) (slidepose1 slidepose2 : Quad)
    (h : matchlist.length < 5 ∨
        (matchlist.filter
            (fun m => !(reprojerror sq keypoints1 keypoints2 homography m).isNan)).length < 5 ∨
        slidepose1.ConvexClockwise = false ∨ slidepose2.ConvexClockwise = false ∨
        slidepose1.Area < 100 ∨ slidepose1.Area > 25000000 ∨
        slidepose2.Area < 100 ∨ slidepose2.Area > 25000000) :
    matchcost sq keypoints1 keypoints2 matchlist homography slidepose1 slidepose2 = FP.inf := by
  simp only [matchcost, min_matchsize]
  split
  · rfl
  · rename_i h1
    split
    · rfl
    · rename_i h2
      split
      · rfl
      · rename_i h3
        split
        · rfl
        · rename_i h4
          split
          · rfl
          · rename_i h5
            exfalso
            simp only [Bool.or_eq_true, Bool.not_eq_true] at h2
            push_neg at h3 h4
            rcases h with h | h | h | h | h | h | h | h
            · exact h1 h
            · have hsplit := length_filter_not_add
                (fun m => (reprojerror sq keypoints1 keypoints2 homography m).isNan) matchlist
              have hmapeq := length_filter_map_eq
                (reprojerror sq keypoints1 keypoints2 homography) FP.isNan matchlist
              rw [hmapeq] at h5
              omega
            · exact h2 (Or.inl (by simp [h]))
            · exact h2 (Or.inr (by simp [h]))
            · exact absurd h (by linarith [h3.1])
            · exact absurd h (by linarith [h4.1])
            · exact absurd h (by linarith [h3.2])
            · exact absurd h (by linarith [h4.2])

/-- Witness for `matchcost_hard_rejections`: the empty match list with the
identity square root, the zero homography and a pair of default quads. -/
theorem matchcost_hard_rejections_witness :
    (([] : List DMatch).length < 5 ∨
        (([] : List DMatch).filter
            (fun m =>
              !(reprojerror (fun x => x) [] [] (fun _ _ => (0 : ℚ)) m).isNan)).length < 5 ∨
        Quad.default.ConvexClockwise = false ∨ Quad.default.ConvexClockwise = false ∨
        Quad.default.Area < 100 ∨ Quad.default.Area > 25000000 ∨
        Quad.default.Area < 100 ∨ Quad.default.Area > 25000000) ∧
      matchcost (fun x => x) [] [] [] (fun _ _ => (0 : ℚ)) Quad.default Quad.default =
        FP.inf :=
  ⟨Or.inl (by decide),
    matchcost_hard_rejections (fun x => x) [] [] [] (fun _ _ => (0 : ℚ))
      Quad.default Quad.default (Or.inl (by decide))⟩

/-- C7 is the behaviour the spec describes (the precomputed area equals the
enclosed geometric area, in particular `w*h` for the rectangle): the code
violates it because the constructor never halves the triangle cross products
its own comment says to halve: for every axis-aligned rectangle the stored
area is `2*w*h`, and at the unit square `Quad(0,0, 0,1, 1,1, 1,0)` — a
convex-clockwise quad — `Area()` evaluates to 2 instead of 1. -/
theorem quad_area_is_doubled :
    (∀ w h : ℚ, (Quad.ofCoords 0 0 0 h w h w 0).Area = 2 * (w * h)) ∧
      (Quad.ofCoords 0 0 0 1 1 1 1 0).Area = 2 ∧
      (Quad.ofCoords 0 0 0 1 1 1 1 0).ConvexClockwise = true := by
  refine ⟨fun w h => ?_, ?_, ?_⟩
  · simp only [Quad.ofCoords, Quad.Area]
    ring
  · simp only [Quad.ofCoords, Quad.Area]
    norm_num
  · simp only [Quad.ofCoords, Quad.ConvexClockwise, Bool.and_eq_true, decide_eq_true_eq]
    norm_num

/-- C8: applying the perspective operation with an empty/missing homography
returns the all-zero default `Quad` instead of failing; that quad's
convex-clockwise flag is `true` (it passes the convexity check), and every
`matchcost` call holding it as either pose returns `+inf` — rejected by the
`area < 100` lower bound when not already rejected by an earlier guard. -/
theorem quadperspective_empty_rejected (q : Quad) (sq : ℚ → ℚ)
    (keypoints1 keypoints2 : List (ℚ × ℚ)) (matchlist : List DMatch) (homography : Mat3)
    (p : Quad) :
    quadperspective q none = Quad.default ∧
      Quad.default.ConvexClockwise = true ∧
      matchcost sq keypoints1 keypoints2 matchlist homography (quadperspective q none) p =
        FP.inf ∧
      matchcost sq keypoints1 keypoints2 matchlist homography p (quadperspective q none) =
        FP.inf := by
  refine ⟨rfl, rfl, ?_, ?_⟩
  · simp only [quadperspective, matchcost]
    split
    · rfl
    · split
      · rfl
      · rw [if_pos (Or.inl (by norm_num [Quad.default, Quad.Area]))]
  · simp only [quadperspective, matchcost]
    split
    · rfl
    · split
      · rfl
      · rw [if_pos (Or.inr (by norm_num [Quad.default, Quad.Area]))]

theorem pad_hours_wraps : (pad (to_string_u 100) '0' 2).length = U32 + 2 := by
  have h100 : to_string_u 100 = ['1', '0', '0'] := by decide
  simp only [pad, h100, List.length_append, List.length_replicate, List.length_cons,
    List.length_nil, U32]
  omega

/-- C10 is the behaviour the code evidently intends (`timestamp2index`
documents itself as the inverse of `index2timestamp`, reading back exactly
the `HH:mm:ss.FF` layout the formatter emits); the code violates it for every
framerate: each `Skip` extraction inside `timestamp2index` ends with the
operator's stray `stream >> skipws;` bool read, which swallows the digit run
after the matched separator — here the minutes field `"00"` — so the next
field extraction starts on `':'`, sets `failbit` and throws. At frame 100,
framerate 24, the formatter produces `"00:00:04.04"` and the parser fails on
it instead of returning 100. The claim's `pad` observation is itself
accurate: the fill count is computed by unsigned subtraction, so at 100 hours
the hours field comes back `2^32 + 2` characters long. -/
theorem timestamp_roundtrip_fails :
    index2timestamp 100 24 = some "00:00:04.04" ∧
      timestamp2index "00:00:04.04" 24 = none ∧
      (index2timestamp 100 24).bind (fun s => timestamp2index s 24) = none ∧
      (pad (to_string_u 100) '0' 2).length = U32 + 2 :=
  ⟨by decide, by decide, by decide, pad_hours_wraps⟩

end SlideSync
